import Mathlib

/-!
Verification development for the two scripts of this repository:
`qr_scanner.py` (a QR/barcode scanning CLI with JSON export) and
`generate_commits.py` (a templated commit-message generator driving git).

The Python code is shallowly embedded: pure string manipulation becomes
Lean functions on `String`/`List Char`; the scanner object becomes an
explicit `Scanner` state record threaded through the operations;
`datetime.now()` becomes a monotone `Nat` counter (each call returns the
current counter and increments it); the external collaborators
(OpenCV image loading, pyzbar decoding, the camera, git) are opaque in the
source and are represented by their observable outputs (the decoded-symbol
list an image yields, per-frame camera events, per-iteration git replies).
All Python-level exceptions in these scripts are caught at the operation
boundary, so every embedded operation is a total function.
-/

namespace QRDecoder

/-! ## Data model: the decoded-code record (qr_scanner.py lines 164-185)

`pyzbar.decode` returns native symbol objects with `data` (bytes), `type`,
`rect` and `polygon`; `_decode_qr_codes` maps each of them to a dict.
We embed the native symbol as `ZbarCode` (with `data` already a decoded
string) and the dict produced by `_decode_qr_codes` as `Record`, with
`timestamp` the value of the monotone `datetime.now()` counter. -/

structure Rect where
  left : Int
  top : Int
  width : Int
  height : Int
deriving DecidableEq, Repr

structure ZbarCode where
  data : String
  symbology : String
  rect : Rect
  polygon : List (Int × Int)
deriving DecidableEq, Repr

structure Record where
  data : String
  symbology : String
  rect : Rect
  polygon : List (Int × Int)
  source : String
  timestamp : Nat
deriving DecidableEq, Repr

/-- `QRCodeScanner._decode_qr_codes` (name embedded without the leading
underscore): build one `Record` per decoded symbol, in order, stamping each
with `datetime.now()` — modelled by the counter, incremented per call. -/
def decode_qr_codes : List ZbarCode → String → Nat → List Record × Nat
  | [], _, c => ([], c)
  | z :: zs, src, c =>
    let r : Record := ⟨z.data, z.symbology, z.rect, z.polygon, src, c⟩
    let (rs, c') := decode_qr_codes zs src (c + 1)
    (r :: rs, c')

/-! ## Filesystem model (for `scan_image` / `scan_directory`)

A file's only observable role in the scripts is what `cv2.imread` +
`pyzbar.decode` yield for it: `Image.unreadable` models a path where
`cv2.imread` returns `None`, `Image.readable codes` a loadable image whose
pyzbar decode result is `codes`. Directory entries have names; a path is
its list of name components. -/

inductive Image where
  | unreadable
  | readable (codes : List ZbarCode)
deriving DecidableEq, Repr

inductive FsEntry where
  | file (name : String) (img : Image)
  | dir (name : String) (entries : List FsEntry)
deriving Repr

mutual

def FsEntry.deq : (a b : FsEntry) → Decidable (a = b)
  | .file n i, .file m j =>
    if h1 : n = m then
      if h2 : i = j then isTrue (by rw [h1, h2])
      else isFalse (fun h => by cases h; exact h2 rfl)
    else isFalse (fun h => by cases h; exact h1 rfl)
  | .file _ _, .dir _ _ => isFalse (fun h => by cases h)
  | .dir _ _, .file _ _ => isFalse (fun h => by cases h)
  | .dir n es, .dir m fs =>
    if h1 : n = m then
      match FsEntry.deqList es fs with
      | isTrue h2 => isTrue (by rw [h1, h2])
      | isFalse h2 => isFalse (fun h => by cases h; exact h2 rfl)
    else isFalse (fun h => by cases h; exact h1 rfl)

def FsEntry.deqList : (a b : List FsEntry) → Decidable (a = b)
  | [], [] => isTrue rfl
  | [], _ :: _ => isFalse (fun h => by cases h)
  | _ :: _, [] => isFalse (fun h => by cases h)
  | a :: as, b :: bs =>
    match FsEntry.deq a b, FsEntry.deqList as bs with
    | isTrue h1, isTrue h2 => isTrue (by rw [h1, h2])
    | isFalse h1, _ => isFalse (fun h => by cases h; exact h1 rfl)
    | _, isFalse h2 => isFalse (fun h => by cases h; exact h2 rfl)

end

instance : DecidableEq FsEntry := FsEntry.deq

def entryName : FsEntry → String
  | .file n _ => n
  | .dir n _ => n

def isFile : FsEntry → Bool
  | .file _ _ => true
  | .dir _ _ => false

/-- First entry with the given name (directory entries of a real
filesystem have distinct names, so "first" is innocuous). -/
def findByName (n : String) : List FsEntry → Option FsEntry
  | [] => none
  | e :: es => if entryName e = n then some e else findByName n es

/-- Resolve a path (list of components) against a filesystem (the entry
list of the root). Models `os.path.exists` / `Path.exists` plus the
actual lookup the OS performs when a file is opened. -/
def lookupList (es : List FsEntry) : List String → Option FsEntry
  | [] => none
  | n :: rest =>
    match findByName n es with
    | none => none
    | some e =>
      match rest with
      | [] => some e
      | _ :: _ =>
        match e with
        | .dir _ es2 => lookupList es2 rest
        | .file _ _ => none

/-- `pathlib.PurePath.suffix` of a single name component: the substring
from the last dot, provided that dot is neither the first nor the last
character; otherwise the empty string. -/
def rfindIdx (c : Char) : List Char → Option Nat
  | [] => none
  | x :: xs =>
    match rfindIdx c xs with
    | some i => some (i + 1)
    | none => if x = c then some 0 else none

def pySuffix (name : String) : String :=
  let cs := name.data
  match rfindIdx '.' cs with
  | none => ""
  | some i => if 0 < i ∧ i + 1 < cs.length then String.mk (cs.drop i) else ""

/-- `supported_formats` of `scan_directory` (qr_scanner.py line 139). -/
def supported_formats : List String :=
  [".jpg", ".jpeg", ".png", ".bmp", ".tiff", ".tif", ".gif"]

/-! ## The scanner session state

`QRCodeScanner.__init__`: `self.results = []`, `self.camera = None`.
The camera field holds `some opened?` once `cv2.VideoCapture(0)` has been
assigned (`opened?` = the `isOpened()` flag) and `none` when it is `None`. -/

structure Scanner where
  results : List Record
  camera : Option Bool
deriving DecidableEq, Repr

/-- `QRCodeScanner._release_camera` (embedded without the leading
underscore): if the camera is not `None`, release it and set it to `None`;
in both cases the field ends up `None`. -/
def release_camera (st : Scanner) : Scanner :=
  { st with camera := none }

/-! ## scan_image (qr_scanner.py lines 43-66)

Pure core over the filesystem: a missing path, a path `cv2.imread` cannot
load (unreadable file, or a directory — `os.path.exists` is true for a
directory but `imread` returns `None` for it) all yield `[]`; a readable
image is decoded with the path string as `source`. All exceptions are
caught in the method, hence a total function. -/

def pathString (p : List String) : String := String.intercalate "/" p

def scan_image_fs (fs : List FsEntry) (p : List String) (c : Nat) :
    List Record × Nat :=
  match lookupList fs p with
  | none => ([], c)
  | some (.dir _ _) => ([], c)
  | some (.file _ .unreadable) => ([], c)
  | some (.file _ (.readable codes)) => decode_qr_codes codes (pathString p) c

/-- The `scan_image` method: its body never reads or writes `self.results`
or `self.camera`, so the scanner state passes through unchanged. -/
def scan_image (st : Scanner) (fs : List FsEntry) (p : List String)
    (c : Nat) : List Record × Scanner × Nat :=
  let (res, c') := scan_image_fs fs p c
  (res, st, c')

/-! ## scan_directory (qr_scanner.py lines 128-162)

`Path(directory).glob('**/*')` (recursive) or `.glob('*')`: enumeration of
the directory's entries — files and subdirectories alike — modelled as a
preorder traversal yielding (path, entry) pairs. The list comprehension
keeps the paths whose `suffix.lower()` is in `supported_formats`, and
`scan_image` is applied to each kept path in order, extending a local
result list. -/

mutual

def globFrom (pre : List String) : FsEntry → List (List String × FsEntry)
  | .file n img => [(pre ++ [n], .file n img)]
  | .dir n es => (pre ++ [n], .dir n es) :: globFromList (pre ++ [n]) es

def globFromList (pre : List String) :
    List FsEntry → List (List String × FsEntry)
  | [] => []
  | e :: es => globFrom pre e ++ globFromList pre es

end

/-- The candidate (path, entry) pairs `scan_directory` enumerates for a
directory path: all descendants when `recursive`, the immediate entries
otherwise; `[]` when the path is not an existing directory. -/
def dirEntries (fs : List FsEntry) (dirPath : List String)
    (recursive : Bool) : List (List String × FsEntry) :=
  match lookupList fs dirPath with
  | some (.dir _ es) =>
    if recursive then globFromList dirPath es
    else es.map (fun e => (dirPath ++ [entryName e], e))
  | _ => []

/-- The extension filter of the list comprehension:
`f.suffix.lower() in supported_formats`, where `f.suffix` is the suffix of
the path's last component. -/
def extMatch (p : List String) : Bool :=
  supported_formats.contains (pySuffix (p.getLastD "")).toLower

/-- The `for image_file in image_files:` loop: apply `scan_image` to each
selected path in enumeration order, concatenating the results
(`results.extend(codes)`), threading the time counter. -/
def scanFilesFold (fs : List FsEntry) :
    List (List String × FsEntry) → Nat → List Record × Nat
  | [], c => ([], c)
  | pe :: rest, c =>
    let (codes, c') := scan_image_fs fs pe.1 c
    let (more, c2) := scanFilesFold fs rest c'
    (codes ++ more, c2)

def scan_directory_fs (fs : List FsEntry) (dirPath : List String)
    (recursive : Bool) (c : Nat) : List Record × Nat :=
  match lookupList fs dirPath with
  | none => ([], c)
  | some (.file _ _) => ([], c)
  | some (.dir _ _) =>
    scanFilesFold fs ((dirEntries fs dirPath recursive).filter
      (fun pe => extMatch pe.1)) c

/-- The `scan_directory` method: like `scan_image`, its body never touches
`self.results` or `self.camera` (it uses a local `results` list). -/
def scan_directory (st : Scanner) (fs : List FsEntry) (dirPath : List String)
    (recursive : Bool) (c : Nat) : List Record × Scanner × Nat :=
  let (res, c') := scan_directory_fs fs dirPath recursive c
  (res, st, c')

/-! ## scan_webcam (qr_scanner.py lines 68-126)

One loop iteration reads a frame and processes it. The externally
determined facts of an iteration are embedded as a `Frame` event:
`ret` — the boolean returned by `camera.read()`;
`timeUp` — the outcome of the wall-clock duration check
  (`duration > 0 and elapsed >= duration`; real time is not modelled,
  no claim depends on it);
`kbInt` — a `KeyboardInterrupt` is raised during this iteration
  (not caught by the `except Exception` handler, so it propagates);
`exc` — an ordinary exception is raised while decoding this frame
  (caught by the handler, which releases the camera and returns `[]`);
`codes` — the pyzbar decode result for the frame;
`qKey` — `cv2.waitKey` reports the `q` key (only consulted when the
  preview is shown).
The loop runs until one of the breaks fires; the end of the event list is
the iteration at which `camera.read()` stops succeeding (`ret = false`).
The third component of the result is `some returnValue`, or `none` when a
`KeyboardInterrupt` escapes the method. -/

structure Frame where
  ret : Bool
  timeUp : Bool
  kbInt : Bool
  exc : Bool
  codes : List ZbarCode
  qKey : Bool
deriving DecidableEq, Repr

/-- The `for code in codes:` body (lines 102-107): append a record to
`self.results` only when its data string is non-empty (Python truthiness)
and not yet in the `detected_codes` set, which is extended alongside. -/
def dedupAppend (st : Scanner) (det : List String) :
    List Record → Scanner × List String
  | [] => (st, det)
  | r :: rs =>
    if r.data ≠ "" ∧ ¬ det.contains r.data then
      dedupAppend { st with results := st.results ++ [r] } (r.data :: det) rs
    else
      dedupAppend st det rs

/-- The `while True:` loop of `scan_webcam`, together with the code that
follows it (`destroyAllWindows`, `_release_camera`,
`return list(self.results)`) and the `except Exception` handler
(`_release_camera`, `return []`). -/
def webcamLoop (sp : Bool) :
    List Frame → Scanner → List String → Nat →
    Scanner × Nat × Option (List Record)
  | [], st, _, c => (release_camera st, c, some st.results)
  | f :: fs, st, det, c =>
    if f.kbInt then (st, c, none)
    else if !f.ret then (release_camera st, c, some st.results)
    else if f.timeUp then (release_camera st, c, some st.results)
    else if f.exc then (release_camera st, c, some [])
    else
      let (recs, c') := decode_qr_codes f.codes "webcam" c
      let (st', det') := dedupAppend st det recs
      if sp && f.qKey then (release_camera st', c', some st'.results)
      else webcamLoop sp fs st' det' c'

/-- `scan_webcam`: assign `self.camera = cv2.VideoCapture(0)` (the handle
exists even when the device fails to open); on open failure return `[]`
at once — without releasing; otherwise run the frame loop with a fresh,
call-local `detected_codes` set. -/
def scan_webcam (st : Scanner) (c : Nat) (openOk : Bool)
    (frames : List Frame) (sp : Bool) :
    Scanner × Nat × Option (List Record) :=
  let st1 := { st with camera := some openOk }
  if openOk then webcamLoop sp frames st1 [] c
  else (st1, c, some [])

/-- The CLI entry point's treatment of the webcam scan (qr_scanner.py
lines 457-459 and 486-489): a `KeyboardInterrupt` escaping `scan_webcam`
is caught in `main`, which calls `scanner._release_camera()` and exits
with no result list. -/
def cliScanWebcam (st : Scanner) (c : Nat) (openOk : Bool)
    (frames : List Frame) (sp : Bool) : Scanner × Nat × List Record :=
  match scan_webcam st c openOk frames sp with
  | (st', c', some v) => (st', c', v)
  | (st', c', none) => (release_camera st', c', [])

/-! ## save_results (qr_scanner.py lines 209-232)

The JSON value written by `json.dump`. A record serializes verbatim:
one object per record with its six fields in insertion order. -/

inductive Json where
  | str (s : String)
  | num (n : Int)
  | arr (xs : List Json)
  | obj (fields : List (String × Json))

def recordToJson (r : Record) : Json :=
  .obj [("data", .str r.data),
        ("type", .str r.symbology),
        ("rect", .obj [("left", .num r.rect.left), ("top", .num r.rect.top),
                       ("width", .num r.rect.width),
                       ("height", .num r.rect.height)]),
        ("polygon", .arr (r.polygon.map (fun q => .arr [.num q.1, .num q.2]))),
        ("source", .str r.source),
        ("timestamp", .num r.timestamp)]

/-- `save_results`: the serialized output object, in key order
`scan_date`, `total_codes`, `results` (`datetime.now().isoformat()` is the
counter value, consumed and incremented). -/
def save_results (st : Scanner) (c : Nat) : Json × Nat :=
  (.obj [("scan_date", .num c),
         ("total_codes", .num st.results.length),
         ("results", .arr (st.results.map recordToJson))], c + 1)

def objKeys : Json → List String
  | .obj fields => fields.map Prod.fst
  | _ => []

def objField (j : Json) (k : String) : Option Json :=
  match j with
  | .obj fields => fields.lookup k
  | _ => none


/-- The directory scan as the specification words it: select exactly those
files (not directories) whose extension, lower-cased, is one of the
supported image extensions, and apply `scan_image` to each selected file
sequentially, concatenating the results in enumeration order. To be
compared with `scan_directory_fs`, which filters the enumerated entries by
extension alone (a directory whose name carries an image extension is also
passed to `scan_image`, where `cv2.imread` fails and contributes `[]`). -/
def scan_directory_spec (fs : List FsEntry) (dirPath : List String)
    (recursive : Bool) (c : Nat) : List Record × Nat :=
  scanFilesFold fs
    ((dirEntries fs dirPath recursive).filter
      (fun pe => isFile pe.2 && extMatch pe.1)) c

/-- Concrete fixtures used by witnesses. -/
def demoFs : List FsEntry :=
  [.dir "pics"
    [.file "a.PNG" (.readable [⟨"hello", "QRCODE", ⟨0, 0, 1, 1⟩, [(0, 0)]⟩]),
     .file "notes.txt" (.readable [⟨"nope", "CODE128", ⟨0, 0, 1, 1⟩, []⟩]),
     .dir "sub" [.file "b.jpg" .unreadable,
                 .file "c.gif" (.readable [⟨"deep", "QRCODE", ⟨1, 1, 2, 2⟩, []⟩])],
     .dir "odd.gif" []]]

def zx : ZbarCode := ⟨"x", "QRCODE", ⟨0, 0, 1, 1⟩, [(0, 0)]⟩

def frX : Frame := ⟨true, false, false, false, [zx], false⟩

end QRDecoder

namespace GenCommits

/-! ## generate_commits.py

Random choices are made explicit: a `RandOracle` records the outcome of
every `random.choice` / `random.random()` / `random.randint` call of one
`generate_commit_message` invocation. `random.choice(l)` with outcome
index `i` is `l.getD (i % l.length) default`, always an element of `l`.

Each message template in the source contains the `scope` placeholder
exactly once and no other placeholder, so `template.format(scope=s)`
is literally `before ++ s ++ after`; the template lists below are the
source strings split at that placeholder. -/

def COMMIT_TYPES : List String :=
  ["feat",
  "fix",
  "docs",
  "style",
  "refactor",
  "perf",
  "test",
  "chore",
  "build",
  "ci",
  "revert"]

def SCOPES : List String :=
  ["scanner",
  "webcam",
  "image",
  "cli",
  "gui",
  "export",
  "logging",
  "error-handling",
  "utils",
  "config",
  "deps",
  "docs",
  "tests"]

def FEAT_MESSAGES : List (String × String) :=
  [("add ", " functionality"),
  ("implement ", " feature"),
  ("introduce ", " support"),
  ("add new ", " capabilities"),
  ("implement ", " module"),
  ("add ", " integration"),
  ("create ", " component"),
  ("add ", " feature with validation"),
  ("implement advanced ", " features"),
  ("add ", " with error handling"),
  ("introduce ", " API"),
  ("add ", " configuration options"),
  ("implement ", " with logging"),
  ("add ", " export functionality"),
  ("create ", " interface"),
  ("add ", " batch processing"),
  ("implement ", " preview mode"),
  ("add ", " real-time processing"),
  ("introduce ", " optimization"),
  ("add ", " multi-threading support")]

def FIX_MESSAGES : List (String × String) :=
  [("fix ", " bug"),
  ("resolve ", " issue"),
  ("fix ", " error handling"),
  ("correct ", " logic"),
  ("fix ", " memory leak"),
  ("resolve ", " race condition"),
  ("fix ", " edge case"),
  ("correct ", " validation"),
  ("fix ", " performance issue"),
  ("resolve ", " compatibility issue"),
  ("fix ", " timeout handling"),
  ("correct ", " exception handling"),
  ("fix ", " resource cleanup"),
  ("resolve ", " encoding issue"),
  ("fix ", " camera initialization"),
  ("correct ", " file path handling"),
  ("fix ", " thread safety"),
  ("resolve ", " buffer overflow"),
  ("fix ", " image format detection"),
  ("correct ", " coordinate calculation")]

def DOCS_MESSAGES : List (String × String) :=
  [("update ", " documentation"),
  ("add ", " usage examples"),
  ("improve ", " README"),
  ("document ", " API"),
  ("add ", " installation guide"),
  ("update ", " code comments"),
  ("improve ", " inline documentation"),
  ("add ", " troubleshooting section"),
  ("document ", " configuration"),
  ("update ", " changelog"),
  ("add ", " architecture docs"),
  ("improve ", " user guide"),
  ("document ", " best practices"),
  ("add ", " API reference"),
  ("update ", " examples"),
  ("improve ", " documentation structure"),
  ("add ", " contribution guidelines"),
  ("document ", " error codes"),
  ("update ", " performance notes"),
  ("add ", " deployment guide")]

def STYLE_MESSAGES : List (String × String) :=
  [("format ", " code"),
  ("apply code style to ", ""),
  ("clean up ", " formatting"),
  ("standardize ", " code style"),
  ("fix ", " linting issues"),
  ("improve ", " code readability"),
  ("refactor ", " formatting"),
  ("apply PEP8 to ", ""),
  ("clean up ", " whitespace"),
  ("standardize ", " naming"),
  ("fix ", " indentation"),
  ("improve ", " code structure"),
  ("format ", " imports"),
  ("clean up ", " comments"),
  ("standardize ", " docstrings")]

def REFACTOR_MESSAGES : List (String × String) :=
  [("refactor ", " module"),
  ("restructure ", " code"),
  ("improve ", " architecture"),
  ("optimize ", " structure"),
  ("refactor ", " functions"),
  ("restructure ", " classes"),
  ("improve ", " design patterns"),
  ("refactor ", " error handling"),
  ("optimize ", " code organization"),
  ("restructure ", " components"),
  ("improve ", " separation of concerns"),
  ("refactor ", " initialization"),
  ("optimize ", " data flow"),
  ("restructure ", " file structure"),
  ("improve ", " modularity")]

def PERF_MESSAGES : List (String × String) :=
  [("optimize ", " performance"),
  ("improve ", " speed"),
  ("reduce ", " memory usage"),
  ("optimize ", " processing"),
  ("improve ", " efficiency"),
  ("reduce ", " CPU usage"),
  ("optimize ", " algorithm"),
  ("improve ", " response time"),
  ("reduce ", " latency"),
  ("optimize ", " resource usage"),
  ("improve ", " throughput"),
  ("reduce ", " overhead"),
  ("optimize ", " image processing"),
  ("improve ", " frame rate"),
  ("reduce ", " processing time")]

def TEST_MESSAGES : List (String × String) :=
  [("add ", " unit tests"),
  ("implement ", " test suite"),
  ("add ", " integration tests"),
  ("improve ", " test coverage"),
  ("add ", " test cases"),
  ("implement ", " test fixtures"),
  ("add ", " mock tests"),
  ("improve ", " test reliability"),
  ("add ", " edge case tests"),
  ("implement ", " performance tests"),
  ("add ", " regression tests"),
  ("improve ", " test documentation"),
  ("add ", " test utilities"),
  ("implement ", " test automation"),
  ("add ", " validation tests")]

def CHORE_MESSAGES : List (String × String) :=
  [("update ", " dependencies"),
  ("bump ", " version"),
  ("clean up ", " files"),
  ("update ", " configuration"),
  ("improve ", " build process"),
  ("update ", " gitignore"),
  ("clean up ", " temporary files"),
  ("update ", " license"),
  ("improve ", " project structure"),
  ("update ", " CI/CD"),
  ("clean up ", " unused code"),
  ("update ", " metadata"),
  ("improve ", " deployment"),
  ("update ", " scripts"),
  ("clean up ", " artifacts")]

def BUILD_MESSAGES : List (String × String) :=
  [("update ", " build configuration"),
  ("improve ", " build process"),
  ("fix ", " build errors"),
  ("optimize ", " build time"),
  ("update ", " build dependencies"),
  ("improve ", " build scripts"),
  ("fix ", " compilation issues"),
  ("update ", " build tools"),
  ("improve ", " packaging"),
  ("fix ", " build warnings")]

def CI_MESSAGES : List (String × String) :=
  [("update ", " CI pipeline"),
  ("improve ", " CI configuration"),
  ("add ", " CI tests"),
  ("fix ", " CI failures"),
  ("optimize ", " CI workflow"),
  ("update ", " CI dependencies"),
  ("improve ", " CI reporting"),
  ("add ", " CI validation"),
  ("fix ", " CI timeout"),
  ("update ", " CI environment")]

def REVERT_MESSAGES : List (String × String) :=
  [("revert ", " changes"),
  ("undo ", " modification")]

def DETAILED_MESSAGES : List String :=
  ["with improved error handling",
  "with comprehensive logging",
  "with unit tests",
  "with performance optimizations",
  "with better documentation",
  "following best practices",
  "with enhanced security",
  "with input validation",
  "with proper error messages",
  "with code comments",
  "with type hints",
  "with async support",
  "with caching mechanism",
  "with retry logic",
  "with timeout handling",
  "with resource cleanup",
  "with memory optimization",
  "with thread safety",
  "with exception handling",
  "with validation checks"]

/-- `MESSAGE_TEMPLATES` (generate_commits.py lines 211-223); the `revert`
entry is the inline two-element list. -/
def MESSAGE_TEMPLATES : List (String × List (String × String)) :=
  [("feat", FEAT_MESSAGES),
   ("fix", FIX_MESSAGES),
   ("docs", DOCS_MESSAGES),
   ("style", STYLE_MESSAGES),
   ("refactor", REFACTOR_MESSAGES),
   ("perf", PERF_MESSAGES),
   ("test", TEST_MESSAGES),
   ("chore", CHORE_MESSAGES),
   ("build", BUILD_MESSAGES),
   ("ci", CI_MESSAGES),
   ("revert", REVERT_MESSAGES)]

/-- `MESSAGE_TEMPLATES.get(commit_type, FEAT_MESSAGES)`. -/
def templatesFor (t : String) : List (String × String) :=
  (MESSAGE_TEMPLATES.lookup t).getD FEAT_MESSAGES

/-- ASCII case mappings; every string fed to `str.capitalize` here is
ASCII, for which Python's case mapping is exactly this one. -/
def asciiUpper (c : Char) : Char :=
  if 97 ≤ c.toNat ∧ c.toNat ≤ 122 then Char.ofNat (c.toNat - 32) else c

def asciiLower (c : Char) : Char :=
  if 65 ≤ c.toNat ∧ c.toNat ≤ 90 then Char.ofNat (c.toNat + 32) else c

/-- Python `str.capitalize`: first character to upper case, the rest to
lower case; empty string unchanged. -/
def pyCapitalize (s : String) : String :=
  match s.data with
  | [] => ""
  | c :: cs => String.mk (asciiUpper c :: cs.map asciiLower)

/-- `random.choice(l)` whose drawn index is `i` (reduced mod the length,
so every oracle value denotes a genuine draw). -/
def choice (l : List String) (i : Nat) : String := l.getD (i % l.length) ""

def choiceP (l : List (String × String)) (i : Nat) : String × String :=
  l.getD (i % l.length) ("", "")

structure RandOracle where
  typeIdx : Nat
  scopeIdx : Nat
  tmplIdx : Nat
  addDetail : Bool
  detailIdx : Nat
  addBody : Bool
  bodyIdx : Nat
  issueNum : Nat

/-- The `body_options` list built inside `generate_commit_message`;
`random.randint(1, 100)` with oracle value `n` is `1 + n % 100`. -/
def body_options (scope : String) (issue : Nat) : List String :=
  ["\n\nThis change improves the " ++ scope ++
     " functionality by\nimplementing better error handling and validation.",
   "\n\nCloses #" ++ toString (1 + issue % 100),
   "\n\nBREAKING CHANGE: " ++ scope ++ " API has been updated.",
   "\n\nThis update enhances " ++ scope ++ " performance and reliability."]

/-- `generate_commit_message` (generate_commits.py lines 249-282). -/
def generate_commit_message (o : RandOracle) : String :=
  let commit_type := choice COMMIT_TYPES o.typeIdx
  let scope := choice SCOPES o.scopeIdx
  let tmpl := choiceP (templatesFor commit_type) o.tmplIdx
  let message := tmpl.1 ++ scope ++ tmpl.2
  let message :=
    if o.addDetail then message ++ " " ++ choice DETAILED_MESSAGES o.detailIdx
    else message
  let message := pyCapitalize message
  let full := commit_type ++ "(" ++ scope ++ "): " ++ message
  if o.addBody then full ++ choice (body_options scope o.issueNum) o.bodyIdx
  else full

/-- The first line of a string: its characters up to the first newline. -/
def firstLine (s : String) : String :=
  String.mk (s.data.takeWhile (fun c => c != '\n'))

/-! ## create_commits (generate_commits.py lines 331-377)

One loop iteration: generate a message, `make_dummy_change` (append a line
to `commit_history.txt`), `git add`, `git commit`. When the commit's
stderr reports "nothing to commit", the code does NOT skip: it appends
another line to the dummy file, stages it again, and runs `git commit`
once more with the same message, and it increments `commits_created`
in both branches. The git side is embedded as the per-iteration boolean
`nothingToCommit` (whether the first attempt's stderr contains the
phrase); the observable behaviour is the sequence of issued commands. -/

inductive GitCmd where
  | dummyChange
  | add (file : String)
  | commit (msg : String)
deriving DecidableEq, Repr

def commitIteration (msg : String) (nothingToCommit : Bool) : List GitCmd :=
  [.dummyChange, .add "commit_history.txt", .commit msg] ++
  (if nothingToCommit then
    [.dummyChange, .add "commit_history.txt", .commit msg]
   else [])

/-- The `for i in range(num_commits):` loop: the commands issued and the
final `commits_created`, given per-iteration messages and git replies. -/
def create_commits : List (String × Bool) → List GitCmd × Nat
  | [] => ([], 0)
  | (msg, ntc) :: rest =>
    let (cmds, n) := create_commits rest
    (commitIteration msg ntc ++ cmds, n + 1)

def isCommitCmd : GitCmd → Bool
  | .commit _ => true
  | _ => false

/-- Number of `git commit` invocations in a command trace. -/
def countCommits (cmds : List GitCmd) : Nat :=
  (cmds.filter isCommitCmd).length


/-- `cs` contains no newline character. -/
def noNL (cs : List Char) : Bool := cs.all (fun c => c != '\n')

/-- Decidable per-template check: the before-part is non-empty, its first
character capitalizes to an uppercase non-newline character, and neither
part contains a newline even after lower-casing. -/
def tmplOK (p : String × String) : Bool :=
  !p.1.data.isEmpty &&
  (asciiUpper p.1.data.headI).isUpper &&
  (asciiUpper p.1.data.headI != '\n') &&
  noNL (p.1.data.tail.map asciiLower) && noNL (p.2.data.map asciiLower)

/-- Every template of every commit type. -/
def allTemplates : List (String × String) :=
  FEAT_MESSAGES ++ FIX_MESSAGES ++ DOCS_MESSAGES ++ STYLE_MESSAGES ++
  REFACTOR_MESSAGES ++ PERF_MESSAGES ++ TEST_MESSAGES ++ CHORE_MESSAGES ++
  BUILD_MESSAGES ++ CI_MESSAGES ++ REVERT_MESSAGES

end GenCommits

namespace QRDecoder

theorem dedupAppend_spec : ∀ (rs : List Record) (st : Scanner) (det : List String),
    ∃ new,
      (dedupAppend st det rs).1.results = st.results ++ new ∧
      (dedupAppend st det rs).1.camera = st.camera ∧
      new.Sublist rs ∧
      (∀ r ∈ new, r.data ∉ det) ∧
      (∀ r ∈ new, r.data ∈ (dedupAppend st det rs).2) ∧
      (∀ s ∈ det, s ∈ (dedupAppend st det rs).2) ∧
      new.Pairwise (fun a b => a.data ≠ b.data)
  | [], st, det => ⟨[], by simp [dedupAppend]⟩
  | r :: rs, st, det => by
    by_cases hc : r.data ≠ "" ∧ ¬ det.contains r.data
    · obtain ⟨new, h1, h2, h3, h4, h5, h6, h7⟩ :=
        dedupAppend_spec rs { st with results := st.results ++ [r] } (r.data :: det)
      have hmem : r.data ∉ det := by
        intro hm; exact hc.2 (by simpa using hm)
      refine ⟨r :: new, ?_, ?_, ?_, ?_, ?_, ?_, ?_⟩
      · simp only [dedupAppend, if_pos hc]
        simpa using h1
      · simpa only [dedupAppend, if_pos hc] using h2
      · exact List.Sublist.cons₂ r h3
      · intro x hx
        rcases List.mem_cons.mp hx with rfl | hx
        · exact hmem
        · exact fun hd => h4 x hx (List.mem_cons_of_mem _ hd)
      · intro x hx
        simp only [dedupAppend, if_pos hc]
        rcases List.mem_cons.mp hx with rfl | hx
        · exact h6 x.data (List.mem_cons_self _ _)
        · exact h5 x hx
      · intro s hs
        simp only [dedupAppend, if_pos hc]
        exact h6 s (List.mem_cons_of_mem _ hs)
      · refine List.pairwise_cons.mpr ⟨?_, h7⟩
        intro b hb heq
        exact h4 b hb (heq ▸ List.mem_cons_self _ _)
    · obtain ⟨new, h1, h2, h3, h4, h5, h6, h7⟩ := dedupAppend_spec rs st det
      refine ⟨new, ?_, ?_, List.Sublist.cons r h3, h4, ?_, ?_, h7⟩
      · simpa only [dedupAppend, if_neg hc] using h1
      · simpa only [dedupAppend, if_neg hc] using h2
      · simpa only [dedupAppend, if_neg hc] using h5
      · simpa only [dedupAppend, if_neg hc] using h6

end QRDecoder

namespace QRDecoder

theorem decode_qr_codes_spec : ∀ (zs : List ZbarCode) (src : String) (c : Nat),
    (decode_qr_codes zs src c).2 = c + zs.length ∧
    (∀ r ∈ (decode_qr_codes zs src c).1,
      c ≤ r.timestamp ∧ r.timestamp < c + zs.length) ∧
    (decode_qr_codes zs src c).1.Pairwise (fun a b => a.timestamp < b.timestamp)
  | [], src, c => by simp [decode_qr_codes]
  | z :: zs, src, c => by
    obtain ⟨h1, h2, h3⟩ := decode_qr_codes_spec zs src (c + 1)
    refine ⟨?_, ?_, ?_⟩
    · simp [decode_qr_codes, h1]; omega
    · intro r hr
      simp only [decode_qr_codes, List.mem_cons] at hr
      rcases hr with rfl | hr
      · simp
      · have := h2 r hr
        simp only [List.length_cons]
        omega
    · simp only [decode_qr_codes]
      refine List.pairwise_cons.mpr ⟨?_, h3⟩
      intro b hb
      have := h2 b hb
      simp only []
      omega

theorem webcamLoop_results (sp : Bool) :
    ∀ (fs : List Frame) (st : Scanner) (det : List String) (c : Nat),
    ∃ new,
      (webcamLoop sp fs st det c).1.results = st.results ++ new ∧
      new.Pairwise (fun a b => a.data ≠ b.data) ∧
      (∀ r ∈ new, r.data ∉ det)
  | [], st, det, c => ⟨[], by simp [webcamLoop, release_camera]⟩
  | f :: fs, st, det, c => by
    by_cases hk : f.kbInt
    · exact ⟨[], by simp [webcamLoop, hk]⟩
    · by_cases hr : f.ret
      · by_cases ht : f.timeUp
        · exact ⟨[], by simp [webcamLoop, hk, hr, ht, release_camera]⟩
        · by_cases he : f.exc
          · exact ⟨[], by simp [webcamLoop, hk, hr, ht, he, release_camera]⟩
          · obtain ⟨new1, d1, d2, d3, d4, d5, d6, d7⟩ :=
              dedupAppend_spec (decode_qr_codes f.codes "webcam" c).1 st det
            by_cases hq : sp && f.qKey
            · refine ⟨new1, ?_, d7, d4⟩
              simp [webcamLoop, hk, hr, ht, he, hq, release_camera, d1]
            · obtain ⟨new2, g1, g2, g3⟩ :=
                webcamLoop_results sp fs
                  (dedupAppend st det (decode_qr_codes f.codes "webcam" c).1).1
                  (dedupAppend st det (decode_qr_codes f.codes "webcam" c).1).2
                  (decode_qr_codes f.codes "webcam" c).2
              refine ⟨new1 ++ new2, ?_, ?_, ?_⟩
              · simp only [webcamLoop, hk, hr, ht, he, hq]
                simp [g1, d1]
              · refine List.pairwise_append.mpr ⟨d7, g2, ?_⟩
                intro a ha b hb
                exact fun heq => g3 b hb (heq ▸ d5 a ha)
              · intro r hrm
                rcases List.mem_append.mp hrm with h | h
                · exact d4 r h
                · exact fun hd => g3 r h (d6 _ hd)
      · exact ⟨[], by simp [webcamLoop, hk, hr, release_camera]⟩

end QRDecoder

namespace QRDecoder

theorem webcamLoop_camera (sp : Bool) :
    ∀ (fs : List Frame) (st : Scanner) (det : List String) (c : Nat),
    (webcamLoop sp fs st det c).1.camera = none ∨
    ((webcamLoop sp fs st det c).2.2 = none ∧
      (webcamLoop sp fs st det c).1.camera = st.camera)
  | [], st, det, c => Or.inl (by simp [webcamLoop, release_camera])
  | f :: fs, st, det, c => by
    by_cases hk : f.kbInt
    · exact Or.inr (by simp [webcamLoop, hk])
    · by_cases hr : f.ret
      · by_cases ht : f.timeUp
        · exact Or.inl (by simp [webcamLoop, hk, hr, ht, release_camera])
        · by_cases he : f.exc
          · exact Or.inl (by simp [webcamLoop, hk, hr, ht, he, release_camera])
          · by_cases hq : sp && f.qKey
            · exact Or.inl (by simp [webcamLoop, hk, hr, ht, he, hq, release_camera])
            · obtain ⟨_, _, dcam, _⟩ :=
                dedupAppend_spec (decode_qr_codes f.codes "webcam" c).1 st det
              rcases webcamLoop_camera sp fs
                  (dedupAppend st det (decode_qr_codes f.codes "webcam" c).1).1
                  (dedupAppend st det (decode_qr_codes f.codes "webcam" c).1).2
                  (decode_qr_codes f.codes "webcam" c).2 with h | ⟨h1, h2⟩
              · exact Or.inl (by simpa [webcamLoop, hk, hr, ht, he, hq] using h)
              · refine Or.inr ⟨?_, ?_⟩
                · simpa [webcamLoop, hk, hr, ht, he, hq] using h1
                · simp only [webcamLoop, hk, hr, ht, he, hq]
                  simp only [Bool.not_true, Bool.false_eq_true, if_false,
                    Bool.not_false, if_true] at h2 ⊢
                  rw [h2]
                  exact dcam
      · exact Or.inl (by simp [webcamLoop, hk, hr, release_camera])

theorem webcamLoop_normal (sp : Bool) :
    ∀ (fs : List Frame) (st : Scanner) (det : List String) (c : Nat),
    (∀ f ∈ fs, f.kbInt = false ∧ f.exc = false) →
    (webcamLoop sp fs st det c).2.2 =
      some ((webcamLoop sp fs st det c).1.results)
  | [], st, det, c, _ => by simp [webcamLoop, release_camera]
  | f :: fs, st, det, c, h => by
    have hf := h f (List.mem_cons_self _ _)
    by_cases hr : f.ret
    · by_cases ht : f.timeUp
      · simp [webcamLoop, hf.1, hf.2, hr, ht, release_camera]
      · by_cases hq : sp && f.qKey
        · simp [webcamLoop, hf.1, hf.2, hr, ht, hq, release_camera]
        · have ih := webcamLoop_normal sp fs
            (dedupAppend st det (decode_qr_codes f.codes "webcam" c).1).1
            (dedupAppend st det (decode_qr_codes f.codes "webcam" c).1).2
            (decode_qr_codes f.codes "webcam" c).2
            (fun g hg => h g (List.mem_cons_of_mem _ hg))
          simpa [webcamLoop, hf.1, hf.2, hr, ht, hq] using ih
    · simp [webcamLoop, hf.1, hf.2, hr, release_camera]

end QRDecoder

namespace QRDecoder

theorem webcamLoop_sorted (sp : Bool) :
    ∀ (fs : List Frame) (st : Scanner) (det : List String) (c : Nat),
    st.results.Pairwise (fun a b => a.timestamp ≤ b.timestamp) →
    (∀ r ∈ st.results, r.timestamp < c) →
    (webcamLoop sp fs st det c).1.results.Pairwise
      (fun a b => a.timestamp ≤ b.timestamp) ∧
    (∀ r ∈ (webcamLoop sp fs st det c).1.results,
      r.timestamp < (webcamLoop sp fs st det c).2.1)
  | [], st, det, c, hs, hb => by
    simpa [webcamLoop, release_camera] using ⟨hs, hb⟩
  | f :: fs, st, det, c, hs, hb => by
    by_cases hk : f.kbInt
    · simpa [webcamLoop, hk] using ⟨hs, hb⟩
    · by_cases hr : f.ret
      · by_cases ht : f.timeUp
        · simpa [webcamLoop, hk, hr, ht, release_camera] using ⟨hs, hb⟩
        · by_cases he : f.exc
          · simpa [webcamLoop, hk, hr, ht, he, release_camera] using ⟨hs, hb⟩
          · -- decode this frame, append the fresh codes
            obtain ⟨e1, e2, e3⟩ := decode_qr_codes_spec f.codes "webcam" c
            obtain ⟨new, d1, _, d3, _⟩ :=
              dedupAppend_spec (decode_qr_codes f.codes "webcam" c).1 st det
            have hnew_sorted :
                new.Pairwise (fun a b => a.timestamp < b.timestamp) :=
              e3.sublist d3
            have hnew_mem : ∀ r ∈ new,
                c ≤ r.timestamp ∧
                r.timestamp < c + f.codes.length := by
              intro r hrm
              have := e2 r (d3.subset hrm)
              omega
            have hs' :
                (dedupAppend st det
                  (decode_qr_codes f.codes "webcam" c).1).1.results.Pairwise
                  (fun a b => a.timestamp ≤ b.timestamp) := by
              rw [d1]
              refine List.pairwise_append.mpr ⟨hs, hnew_sorted.imp (by omega), ?_⟩
              intro a ha b hbm
              have h1 := hb a ha
              have h2 := (hnew_mem b hbm).1
              omega
            have hb' : ∀ r ∈ (dedupAppend st det
                  (decode_qr_codes f.codes "webcam" c).1).1.results,
                r.timestamp < (decode_qr_codes f.codes "webcam" c).2 := by
              rw [d1, e1]
              intro r hrm
              rcases List.mem_append.mp hrm with h | h
              · have := hb r h; omega
              · exact (hnew_mem r h).2
            by_cases hq : sp && f.qKey
            · simp only [webcamLoop, hk, hr, ht, he, hq]
              simp only [Bool.not_true, Bool.false_eq_true, if_false,
                Bool.not_false, if_true]
              exact ⟨hs', by simpa [release_camera] using hb'⟩
            · have ih := webcamLoop_sorted sp fs
                (dedupAppend st det (decode_qr_codes f.codes "webcam" c).1).1
                (dedupAppend st det (decode_qr_codes f.codes "webcam" c).1).2
                (decode_qr_codes f.codes "webcam" c).2 hs' hb'
              simpa [webcamLoop, hk, hr, ht, he, hq] using ih
      · simpa [webcamLoop, hk, hr, release_camera] using ⟨hs, hb⟩

end QRDecoder

namespace QRDecoder

theorem scan_image_fs_dir (fs : List FsEntry) (p : List String) (c : Nat)
    (n : String) (es : List FsEntry)
    (h : lookupList fs p = some (.dir n es)) :
    scan_image_fs fs p c = ([], c) := by
  simp [scan_image_fs, h]

theorem scanFilesFold_filter (fs : List FsEntry) :
    ∀ (l : List (List String × FsEntry)) (c : Nat),
    (∀ pe ∈ l, lookupList fs pe.1 = some pe.2) →
    scanFilesFold fs (l.filter (fun pe => extMatch pe.1)) c =
    scanFilesFold fs (l.filter (fun pe => isFile pe.2 && extMatch pe.1)) c
  | [], c, _ => rfl
  | pe :: rest, c, h => by
    have hpe := h pe (List.mem_cons_self _ _)
    have hrest := fun x hx => h x (List.mem_cons_of_mem _ hx)
    by_cases hext : extMatch pe.1
    · by_cases hfile : isFile pe.2
      · rw [List.filter_cons_of_pos (by simpa using hext),
          List.filter_cons_of_pos (by simp [hfile, hext])]
        simp only [scanFilesFold]
        rw [scanFilesFold_filter fs rest (scan_image_fs fs pe.1 c).2 hrest]
      · obtain ⟨n, es, hdir⟩ : ∃ n es, pe.2 = .dir n es := by
          rcases pe with ⟨p1, p2⟩
          cases p2 with
          | file a b => simp [isFile] at hfile
          | dir n es => exact ⟨n, es, rfl⟩
        rw [List.filter_cons_of_pos (by simpa using hext),
          List.filter_cons_of_neg (by simp [hdir, isFile])]
        simp only [scanFilesFold]
        rw [hdir] at hpe
        rw [scan_image_fs_dir fs pe.1 c _ _ hpe]
        simpa using scanFilesFold_filter fs rest c hrest
    · rw [List.filter_cons_of_neg (by simpa using hext),
        List.filter_cons_of_neg (by simp [hext])]
      exact scanFilesFold_filter fs rest c hrest

theorem scan_directory_fs_eq_spec (fs : List FsEntry) (dirPath : List String)
    (recursive : Bool) (c : Nat)
    (h : ∀ pe ∈ dirEntries fs dirPath recursive,
      lookupList fs pe.1 = some pe.2) :
    scan_directory_fs fs dirPath recursive c =
    scan_directory_spec fs dirPath recursive c := by
  unfold scan_directory_fs scan_directory_spec
  cases hl : lookupList fs dirPath with
  | none => simp [dirEntries, hl, scanFilesFold]
  | some e =>
    cases e with
    | file a b => simp [dirEntries, hl, scanFilesFold]
    | dir n es =>
      have := scanFilesFold_filter fs (dirEntries fs dirPath recursive) c h
      simp only [dirEntries, hl] at this ⊢
      exact this

end QRDecoder

namespace GenCommits

theorem allTemplates_ok : allTemplates.all tmplOK = true := by decide

theorem commit_types_noNL :
    COMMIT_TYPES.all (fun t => noNL t.data) = true := by decide

theorem scopes_noNL :
    SCOPES.all (fun s => noNL s.data && noNL (s.data.map asciiLower)) = true := by
  decide

theorem detailed_noNL :
    DETAILED_MESSAGES.all (fun d => noNL ((" " ++ d).data.map asciiLower)) =
      true := by decide

end GenCommits

namespace GenCommits

theorem choice_mem (l : List String) (i : Nat) (h : l ≠ []) : choice l i ∈ l := by
  have hlen : 0 < l.length := List.length_pos.mpr h
  have hlt : i % l.length < l.length := Nat.mod_lt _ hlen
  rw [choice, List.getD_eq_getElem?_getD, List.getElem?_eq_getElem hlt]
  exact List.getElem_mem hlt

theorem choiceP_mem (l : List (String × String)) (i : Nat) (h : l ≠ []) :
    choiceP l i ∈ l := by
  have hlen : 0 < l.length := List.length_pos.mpr h
  have hlt : i % l.length < l.length := Nat.mod_lt _ hlen
  rw [choiceP, List.getD_eq_getElem?_getD, List.getElem?_eq_getElem hlt]
  exact List.getElem_mem hlt

theorem templatesFor_cases (t : String) :
    templatesFor t = FEAT_MESSAGES ∨ templatesFor t = FIX_MESSAGES ∨
    templatesFor t = DOCS_MESSAGES ∨ templatesFor t = STYLE_MESSAGES ∨
    templatesFor t = REFACTOR_MESSAGES ∨ templatesFor t = PERF_MESSAGES ∨
    templatesFor t = TEST_MESSAGES ∨ templatesFor t = CHORE_MESSAGES ∨
    templatesFor t = BUILD_MESSAGES ∨ templatesFor t = CI_MESSAGES ∨
    templatesFor t = REVERT_MESSAGES := by
  unfold templatesFor MESSAGE_TEMPLATES
  simp only [List.lookup]
  repeat' split
  all_goals simp

end GenCommits

namespace GenCommits

theorem takeWhile_append_nl (p : Char → Bool) :
    ∀ (a b : List Char), a.all p = true →
    (b = [] ∨ ∃ c cs, b = c :: cs ∧ p c = false) →
    (a ++ b).takeWhile p = a
  | [], b, _, hb => by
    rcases hb with rfl | ⟨c, cs, rfl, hc⟩
    · simp [List.takeWhile]
    · simp [List.takeWhile, hc]
  | x :: xs, b, ha, hb => by
    simp only [List.all_cons, Bool.and_eq_true] at ha
    simp only [List.cons_append, List.takeWhile_cons, ha.1, if_true]
    rw [takeWhile_append_nl p xs b ha.2 hb]

theorem firstLine_of_append (A B : String)
    (hA : noNL A.data = true)
    (hB : B.data = [] ∨ ∃ cs, B.data = '\n' :: cs) :
    firstLine (A ++ B) = A := by
  have hb : B.data = [] ∨
      ∃ c cs, B.data = c :: cs ∧ (c != '\n') = false := by
    rcases hB with h | ⟨cs, h⟩
    · exact Or.inl h
    · exact Or.inr ⟨'\n', cs, h, by decide⟩
  unfold firstLine
  rw [String.data_append, takeWhile_append_nl _ A.data B.data hA hb]

theorem firstLine_of_noNL (A : String) (hA : noNL A.data = true) :
    firstLine A = A := by
  unfold firstLine
  have h := takeWhile_append_nl (fun c => c != '\n') A.data [] hA (Or.inl rfl)
  rw [List.append_nil] at h
  rw [h]

theorem body_options_head (s : String) (issue i : Nat) :
    ∃ cs, (choice (body_options s issue) i).data = '\n' :: cs := by
  have hlen : (body_options s issue).length = 4 := by simp [body_options]
  have h4 : i % (body_options s issue).length = 0 ∨
      i % (body_options s issue).length = 1 ∨
      i % (body_options s issue).length = 2 ∨
      i % (body_options s issue).length = 3 := by
    rw [hlen]; omega
  rcases h4 with h|h|h|h <;>
    · unfold choice
      rw [h]
      exact ⟨_, rfl⟩

end GenCommits

namespace GenCommits

theorem pyCapitalize_shape (w : String) (tp : String × String) (s : String)
    (extra : List Char)
    (hw : w.data = tp.1.data ++ (s.data ++ (tp.2.data ++ extra)))
    (hOK : tmplOK tp = true)
    (hs : noNL (s.data.map asciiLower) = true)
    (hext : noNL (extra.map asciiLower) = true) :
    ∃ c0 rest, (pyCapitalize w).data = c0 :: rest ∧ c0.isUpper = true ∧
      noNL ((pyCapitalize w).data) = true := by
  simp only [tmplOK, Bool.and_eq_true] at hOK
  obtain ⟨⟨⟨⟨hne1, hup⟩, hnl0⟩, hnl1⟩, hnl2⟩ := hOK
  obtain ⟨c, cs, hdata⟩ : ∃ c cs, tp.1.data = c :: cs := by
    cases hd : tp.1.data with
    | nil => rw [hd] at hne1; simp at hne1
    | cons a l => exact ⟨a, l, rfl⟩
  rw [hdata] at hw
  have hcap : (pyCapitalize w).data =
      asciiUpper c :: (cs ++ (s.data ++ (tp.2.data ++ extra))).map asciiLower := by
    unfold pyCapitalize
    rw [hw]
    rfl
  refine ⟨asciiUpper c, _, hcap, ?_, ?_⟩
  · rw [hdata] at hup
    simpa using hup
  · rw [hcap]
    simp only [noNL, List.map_append, List.all_cons, List.all_append,
      Bool.and_eq_true]
    rw [hdata] at hnl0 hnl1
    simp only [List.headI, List.tail] at hnl0 hnl1
    exact ⟨hnl0, ⟨hnl1, hs, hnl2, hext⟩⟩

end GenCommits

namespace GenCommits

/-- Claim C3: for every random choice sequence, the first line of
`generate_commit_message` has the form `type(scope): Message`, where the
type is drawn from `COMMIT_TYPES`, the scope from `SCOPES`, and the
message text is non-empty with an upper-case first character (as produced
by Python's `str.capitalize`). -/
theorem generate_commit_message_first_line_form (o : RandOracle) :
    ∃ t s m, t ∈ COMMIT_TYPES ∧ s ∈ SCOPES ∧
      firstLine (generate_commit_message o) = t ++ "(" ++ s ++ "): " ++ m ∧
      ∃ c0 cs0, m.data = c0 :: cs0 ∧ c0.isUpper = true := by
  have htm : choice COMMIT_TYPES o.typeIdx ∈ COMMIT_TYPES :=
    choice_mem _ _ (by decide)
  have hsm : choice SCOPES o.scopeIdx ∈ SCOPES := choice_mem _ _ (by decide)
  set t := choice COMMIT_TYPES o.typeIdx with ht
  set s := choice SCOPES o.scopeIdx with hs
  set tp := choiceP (templatesFor t) o.tmplIdx with htp
  have hne : templatesFor t ≠ [] := by
    rcases templatesFor_cases t with h|h|h|h|h|h|h|h|h|h|h <;> rw [h] <;> decide
  have htpl : tp ∈ allTemplates := by
    have hsub : ∀ x ∈ templatesFor t, x ∈ allTemplates := by
      rcases templatesFor_cases t with h|h|h|h|h|h|h|h|h|h|h <;> rw [h] <;>
        (intro x hx; simp only [allTemplates, List.mem_append]; tauto)
    exact hsub _ (choiceP_mem _ _ hne)
  have hOK : tmplOK tp = true := List.all_eq_true.mp allTemplates_ok tp htpl
  have hsfacts := List.all_eq_true.mp scopes_noNL s hsm
  simp only [Bool.and_eq_true] at hsfacts
  set msg1 := if o.addDetail then
      tp.1 ++ s ++ tp.2 ++ " " ++ choice DETAILED_MESSAGES o.detailIdx
    else tp.1 ++ s ++ tp.2 with hmsg1
  have hshape : ∃ extra, msg1.data =
      tp.1.data ++ (s.data ++ (tp.2.data ++ extra)) ∧
      noNL (extra.map asciiLower) = true := by
    by_cases hd : o.addDetail
    · refine ⟨(" " ++ choice DETAILED_MESSAGES o.detailIdx).data, ?_, ?_⟩
      · rw [hmsg1]
        simp [hd, String.data_append, List.append_assoc]
      · exact List.all_eq_true.mp detailed_noNL _ (choice_mem _ _ (by decide))
    · refine ⟨[], ?_, by decide⟩
      rw [hmsg1]
      simp [hd, String.data_append, List.append_assoc]
  obtain ⟨extra, hx1, hx2⟩ := hshape
  obtain ⟨c0, rest, hcap, hupper, hnlm⟩ :=
    pyCapitalize_shape msg1 tp s extra hx1 hOK hsfacts.2 hx2
  set m := pyCapitalize msg1 with hm
  set full := t ++ "(" ++ s ++ "): " ++ m with hfull
  have hnlfull : noNL full.data = true := by
    rw [hfull]
    simp only [String.data_append, noNL, List.all_append, Bool.and_eq_true,
      and_assoc]
    refine ⟨?_, ?_, ?_, ?_, ?_⟩
    · exact List.all_eq_true.mp commit_types_noNL t htm
    · decide
    · exact hsfacts.1
    · decide
    · exact hnlm
  have hgen : generate_commit_message o =
      if o.addBody then
        full ++ choice (body_options s o.issueNum) o.bodyIdx
      else full := rfl
  refine ⟨t, s, m, htm, hsm, ?_, ⟨c0, rest, hcap, hupper⟩⟩
  rw [hgen]
  by_cases hb : o.addBody
  · simp only [hb, if_true]
    exact firstLine_of_append full _ hnlfull
      (Or.inr (body_options_head s o.issueNum o.bodyIdx))
  · simp only [hb, if_false]
    exact firstLine_of_noNL full hnlfull

end GenCommits

namespace QRDecoder

theorem scan_webcam_appends (st : Scanner) (c : Nat) (openOk : Bool)
    (frames : List Frame) (sp : Bool) :
    ∃ new, (scan_webcam st c openOk frames sp).1.results = st.results ++ new ∧
      new.Pairwise (fun a b => a.data ≠ b.data) := by
  unfold scan_webcam
  by_cases h : openOk
  · simp only [h, if_true]
    obtain ⟨new, h1, h2, _⟩ :=
      webcamLoop_results sp frames { st with camera := some true } [] c
    exact ⟨new, h1, h2⟩
  · exact ⟨[], by simp [h], List.Pairwise.nil⟩

/-- Claim C1: during one `scan_webcam` call, a record is appended to the
session's results only if its data string has not already been appended in
that call, so the records appended by one call have pairwise distinct
data strings (the session collection grows exactly by such a block). -/
theorem scan_webcam_dedup_per_call (st : Scanner) (c : Nat) (openOk : Bool)
    (frames : List Frame) (sp : Bool) :
    ∃ new, (scan_webcam st c openOk frames sp).1.results = st.results ++ new ∧
      new.Pairwise (fun a b => a.data ≠ b.data) :=
  scan_webcam_appends st c openOk frames sp

/-- Claim C2: provided the enumerated paths resolve to their entries
(true of a real filesystem, where sibling names are distinct),
`scan_directory` returns exactly the concatenation, in enumeration order,
of `scan_image` applied to those files whose extension, compared
case-insensitively, is one of .jpg, .jpeg, .png, .bmp, .tiff, .tif, .gif —
recursing into subdirectories when `recursive` is true. -/
theorem scan_directory_selects_supported_images (st : Scanner) (fs : List FsEntry) (dirPath : List String)
    (recursive : Bool) (c : Nat)
    (h : ∀ pe ∈ dirEntries fs dirPath recursive,
      lookupList fs pe.1 = some pe.2) :
    (scan_directory st fs dirPath recursive c).1 =
      (scan_directory_spec fs dirPath recursive c).1 := by
  simp only [scan_directory]
  rw [scan_directory_fs_eq_spec fs dirPath recursive c h]

/-- Witness for C2 on a concrete tree with an upper-case extension, a
non-image file, a nested matching file and a directory named like an
image. -/
theorem scan_directory_selects_supported_images_witness :
    (∀ pe ∈ dirEntries demoFs ["pics"] true,
      lookupList demoFs pe.1 = some pe.2) ∧
    (scan_directory ⟨[], none⟩ demoFs ["pics"] true 0).1 =
      (scan_directory_spec demoFs ["pics"] true 0).1 :=
  ⟨by decide, scan_directory_selects_supported_images ⟨[], none⟩ demoFs ["pics"] true 0 (by decide)⟩

/-- Claim C4: `save_results` serializes an object with exactly the keys
`scan_date`, `total_codes` and `results`, where `results` is the session's
record collection serialized verbatim in order and `total_codes` is its
length. -/
theorem save_results_output_shape (st : Scanner) (c : Nat) :
    objKeys (save_results st c).1 = ["scan_date", "total_codes", "results"] ∧
    objField (save_results st c).1 "scan_date" = some (.num c) ∧
    objField (save_results st c).1 "total_codes" =
      some (.num st.results.length) ∧
    objField (save_results st c).1 "results" =
      some (.arr (st.results.map recordToJson)) :=
  ⟨rfl, rfl, rfl, rfl⟩

/-- Claim C5: when the path does not exist or the file cannot be loaded
as an image, `scan_image` returns the empty list, leaves the scanner
unchanged and consumes no time — no retry, and (being a total function in
this embedding, as every exception is caught in the method) no exception
reaches the caller. -/
theorem scan_image_missing_or_unloadable_empty (st : Scanner) (fs : List FsEntry) (p : List String) (c : Nat)
    (h : lookupList fs p = none ∨
      ∃ n, lookupList fs p = some (.file n .unreadable)) :
    scan_image st fs p c = ([], st, c) := by
  rcases h with h | ⟨n, h⟩ <;> simp [scan_image, scan_image_fs, h]

/-- Witness for C5: a missing path in the empty filesystem. -/
theorem scan_image_missing_or_unloadable_empty_witness :
    (lookupList [] ["missing.png"] = none ∨
      ∃ n, lookupList [] ["missing.png"] = some (.file n .unreadable)) ∧
    scan_image ⟨[], none⟩ [] ["missing.png"] 5 = ([], ⟨[], none⟩, 5) :=
  ⟨Or.inl rfl, scan_image_missing_or_unloadable_empty ⟨[], none⟩ [] ["missing.png"] 5 (Or.inl rfl)⟩

/-- Claim C7: `scan_webcam` preserves the session invariant that the
records' timestamps are monotonically non-decreasing in append order
(and all lie below the monotone clock), so within a session the
collection stays sorted by timestamp. -/
theorem scan_webcam_timestamps_monotone (st : Scanner) (c : Nat) (openOk : Bool)
    (frames : List Frame) (sp : Bool)
    (h1 : st.results.Pairwise (fun a b => a.timestamp ≤ b.timestamp))
    (h2 : ∀ r ∈ st.results, r.timestamp < c) :
    (scan_webcam st c openOk frames sp).1.results.Pairwise
      (fun a b => a.timestamp ≤ b.timestamp) ∧
    (∀ r ∈ (scan_webcam st c openOk frames sp).1.results,
      r.timestamp < (scan_webcam st c openOk frames sp).2.1) := by
  unfold scan_webcam
  by_cases h : openOk
  · simp only [h, if_true]
    exact webcamLoop_sorted sp frames { st with camera := some true } [] c h1 h2
  · simp only [h, if_false]
    exact ⟨h1, h2⟩

/-- Witness for C7 starting from the empty session. -/
theorem scan_webcam_timestamps_monotone_witness :
    (([] : List Record).Pairwise (fun a b => a.timestamp ≤ b.timestamp) ∧
      ∀ r ∈ ([] : List Record), r.timestamp < 0) ∧
    ((scan_webcam ⟨[], none⟩ 0 true [frX] true).1.results.Pairwise
      (fun a b => a.timestamp ≤ b.timestamp) ∧
     ∀ r ∈ (scan_webcam ⟨[], none⟩ 0 true [frX] true).1.results,
      r.timestamp < (scan_webcam ⟨[], none⟩ 0 true [frX] true).2.1) :=
  ⟨⟨List.Pairwise.nil, by simp⟩,
   scan_webcam_timestamps_monotone ⟨[], none⟩ 0 true [frX] true List.Pairwise.nil (by simp)⟩

/-- Counterexample to claim C8: when the camera fails to open,
`scan_webcam` completes (returning `[]`) via the early return at line 83
of qr_scanner.py, which does not call `_release_camera`, so the camera
field still holds the unopened handle and is not `None`. -/
theorem scan_webcam_open_failure_keeps_handle :
    (scan_webcam ⟨[], none⟩ 0 false [] true).2.2 = some [] ∧
    ¬ (scan_webcam ⟨[], none⟩ 0 false [] true).1.camera = none := by decide

/-- Claim C8 as amended: after every completion of `scan_webcam` that
gets past the camera-open check — normal end of the frame loop, internal
exception, or keyboard interrupt handled by the CLI entry point — the
camera has been released and the scanner's camera field is `None`. -/
theorem cli_scan_webcam_releases_camera (st : Scanner) (c : Nat) (frames : List Frame) (sp : Bool) :
    (cliScanWebcam st c true frames sp).1.camera = none := by
  unfold cliScanWebcam scan_webcam
  simp only [if_true]
  have h := webcamLoop_camera sp frames { st with camera := some true } [] c
  rcases hw : webcamLoop sp frames { st with camera := some true } [] c with
    ⟨st', c', out⟩
  rw [hw] at h
  cases out with
  | some v =>
    rcases h with h | ⟨h1, _⟩
    · simpa using h
    · simp at h1
  | none => simp [release_camera]

/-- Claim C9: `scan_image` and `scan_directory` leave the scanner state
(in particular `self.results`) unchanged; among the scan operations only
`scan_webcam` touches the session collection, and it only appends. -/
theorem scan_ops_frame_effects (st : Scanner) :
    (∀ fs p c, (scan_image st fs p c).2.1 = st) ∧
    (∀ fs p r c, (scan_directory st fs p r c).2.1 = st) ∧
    (∀ c ok frames sp, ∃ new,
      (scan_webcam st c ok frames sp).1.results = st.results ++ new) := by
  refine ⟨fun fs p c => rfl, fun fs p r c => rfl, fun c ok frames sp => ?_⟩
  obtain ⟨new, h1, _⟩ := scan_webcam_appends st c ok frames sp
  exact ⟨new, h1⟩

/-- Claim C10: on a normally completing call, `scan_webcam` returns a
copy of the scanner's entire accumulated session collection (the prior
records plus the block appended by this call); and since the
deduplication set is local to each call, a second call on the same scanner
appends and returns a record whose data equals that of a record from the
first call (concretely, two calls each seeing a code `"x"` leave the
session with data `["x", "x"]`). -/
theorem scan_webcam_returns_whole_session (st : Scanner) (c : Nat) (frames : List Frame) (sp : Bool)
    (h : ∀ f ∈ frames, f.kbInt = false ∧ f.exc = false) :
    ((scan_webcam st c true frames sp).2.2 =
       some ((scan_webcam st c true frames sp).1.results) ∧
     ∃ new, (scan_webcam st c true frames sp).1.results =
       st.results ++ new) ∧
    (scan_webcam (scan_webcam ⟨[], none⟩ 0 true [frX] true).1
        (scan_webcam ⟨[], none⟩ 0 true [frX] true).2.1 true [frX]
        true).1.results.map Record.data = ["x", "x"] := by
  refine ⟨⟨?_, ?_⟩, by decide⟩
  · unfold scan_webcam
    simp only [if_true]
    exact webcamLoop_normal sp frames { st with camera := some true } [] c h
  · obtain ⟨new, h1, _⟩ := scan_webcam_appends st c true frames sp
    exact ⟨new, h1⟩

/-- Witness for C10 with one normal frame. -/
theorem scan_webcam_returns_whole_session_witness :
    (∀ f ∈ [frX], f.kbInt = false ∧ f.exc = false) ∧
    (((scan_webcam ⟨[], none⟩ 0 true [frX] true).2.2 =
       some ((scan_webcam ⟨[], none⟩ 0 true [frX] true).1.results) ∧
     ∃ new, (scan_webcam ⟨[], none⟩ 0 true [frX] true).1.results =
       ([] : List Record) ++ new) ∧
    (scan_webcam (scan_webcam ⟨[], none⟩ 0 true [frX] true).1
        (scan_webcam ⟨[], none⟩ 0 true [frX] true).2.1 true [frX]
        true).1.results.map Record.data = ["x", "x"]) :=
  ⟨by decide, scan_webcam_returns_whole_session ⟨[], none⟩ 0 [frX] true (by decide)⟩

end QRDecoder

namespace GenCommits

/-- Counterexample to claim C6: when the first commit attempt of an
iteration reports "nothing to commit", `create_commits` does not skip the
iteration — it makes another dummy change and issues a second commit
command (two in that iteration), and still counts the iteration as
created. -/
theorem create_commits_nothing_to_commit_retries :
    countCommits
      (commitIteration "Feat(scanner): Add scanner functionality" true) = 2 ∧
    (create_commits
      [("Feat(scanner): Add scanner functionality", true)]).2 = 1 := by
  decide

/-- Claim C6 as amended: failures of the scan operations are converted
into empty result sets (see C5); but a "nothing to commit" reply in
`create_commits` causes exactly one further commit attempt within the same
iteration — an iteration issues two commit commands in that case and one
otherwise, the loop's trace is the concatenation of the per-iteration
traces, and every iteration increments the created count by one. -/
theorem create_commits_retry_once_per_iteration (msg : String) (ntc : Bool) (iters : List (String × Bool)) :
    countCommits (commitIteration msg ntc) = (if ntc then 2 else 1) ∧
    (create_commits iters).1 =
      (iters.map (fun pr => commitIteration pr.1 pr.2)).flatten ∧
    (create_commits iters).2 = iters.length := by
  refine ⟨?_, ?_, ?_⟩
  · cases ntc <;> simp [commitIteration, countCommits, isCommitCmd, List.filter]
  · induction iters with
    | nil => rfl
    | cons pr rest ih => simp [create_commits, ih]
  · induction iters with
    | nil => rfl
    | cons pr rest ih => simp [create_commits, ih]

end GenCommits
